import Mathlib

/-!
Shallow embedding of the adaptive vocabulary learning engine of
`tg-translate-ai-client`: the `LocalDictionary` store (lookup, addWord,
getWordsForReview, updateAfterReview, loadCache migration) and the
dictionary-first text segmenter (`segmentText`, `trySegmentFromDictionary`).

Modelling conventions:
* JavaScript numbers (timestamps, intervals, ease factors) are embedded as
  exact rationals `ℚ`; `Date.now()` is a parameter `now : ℚ`.
* The JS `Map` cache is embedded as a list of entries in insertion order
  (`Map` iteration order); in-place mutation of an entry becomes a
  positional update of the list.
* Strings used as dictionary keys are embedded as `List Char` (Chinese
  text is one UTF-16 code unit per character, so JS `substring` indexing
  coincides with character indexing on the texts involved).
* The asynchronous AI collaborator and the pinyin generator are parameters
  of the segmentation functions: `ai` returns `Except` (an exception in
  JS), `rom` is the `pinyin-pro` call.
-/

/-- DictionaryEntry as defined in `types` and used by `LocalDictionary`:
a word with its romanization, ordered list of meanings, usage statistics
and SM-2 spaced-repetition state. -/
structure DictionaryEntry where
  word : List Char
  pinyin : String
  meanings : List String
  addedAt : ℚ
  usageCount : Nat
  nextReview : ℚ
  interval : ℚ
  easeFactor : ℚ
  reviewCount : Nat
  lastReviewed : ℚ
deriving DecidableEq, Repr

/-- The in-memory dictionary cache: a JS `Map` from word to entry,
embedded as its list of entries in insertion order. -/
abbrev Store := List DictionaryEntry

/-- `LocalDictionary.lookup`: exact-match read of the cache
(`cache.get(word) || null`). -/
def lookup (s : Store) (w : List Char) : Option DictionaryEntry :=
  List.find? (fun e => e.word = w) s

/-- The fresh entry built by `LocalDictionary.addWord` when the word is
absent: `usageCount = 1`, SRS state "due now" with `interval = 0`,
`easeFactor = 2.5`, `reviewCount = 0`, `lastReviewed = 0`. -/
def newEntry (w : List Char) (p t : String) (now : ℚ) : DictionaryEntry :=
  { word := w
    pinyin := p
    meanings := [t]
    addedAt := now
    usageCount := 1
    nextReview := now
    interval := 0
    easeFactor := 5 / 2
    reviewCount := 0
    lastReviewed := 0 }

/-- The mutation `LocalDictionary.addWord` performs on an existing entry:
increment `usageCount`, append the translation to `meanings` unless
already present, overwrite `pinyin` when it differs. -/
def updateExisting (e : DictionaryEntry) (p t : String) : DictionaryEntry :=
  { e with
    usageCount := e.usageCount + 1
    meanings := if t ∈ e.meanings then e.meanings else e.meanings ++ [t]
    pinyin := if e.pinyin ≠ p then p else e.pinyin }

/-- `LocalDictionary.addWord`: upsert of a (word, pinyin, translation)
triple.  An existing entry is updated in place (list position kept, as in
a JS `Map`); a new word is appended. -/
def addWord (s : Store) (w : List Char) (p t : String) (now : ℚ) : Store :=
  match lookup s w with
  | some _ => List.map (fun e => if e.word = w then updateExisting e p t else e) s
  | none => s ++ [newEntry w p t now]

/-- JavaScript `Math.round`: round to the nearest integer, ties toward
positive infinity (`Math.round x = Math.floor (x + 0.5)`). -/
def jsRound (q : ℚ) : ℚ :=
  ((Int.floor (q + 1 / 2) : ℤ) : ℚ)

/-- The SRS mutation `LocalDictionary.updateAfterReview` applies to the
entry being reviewed (quality 1 = Again, 3 = Hard, 4 = Good, 5 = Easy;
any other quality falls through every branch).  Transcribed branch by
branch from the source; decimal constants are written as exact
rationals. -/
def scheduleEntry (e : DictionaryEntry) (quality : ℤ) (now : ℚ) : DictionaryEntry :=
  let e1 := { e with lastReviewed := now }
  let e2 :=
    if quality = 1 then
      { e1 with interval := 10 / (24 * 60), reviewCount := 0 }
    else if quality = 3 then
      let e3 :=
        if e.reviewCount = 0 then { e1 with interval := 1 / 2, reviewCount := 1 }
        else if e.reviewCount = 1 then { e1 with interval := 1, reviewCount := 2 }
        else { e1 with interval := max 1 (e1.interval * (12 / 10)),
                       reviewCount := e1.reviewCount + 1 }
      { e3 with easeFactor := max (13 / 10) (e3.easeFactor - 15 / 100) }
    else if quality = 4 then
      let rc := e1.reviewCount + 1
      let newInterval :=
        if rc = 1 then 1
        else if rc = 2 then 6
        else jsRound (e1.interval * e1.easeFactor)
      { e1 with
        reviewCount := rc
        interval := newInterval
        easeFactor :=
          max (13 / 10)
            (e1.easeFactor +
              (1 / 10 - ((5 - quality : ℤ) : ℚ) * (8 / 100 + ((5 - quality : ℤ) : ℚ) * (2 / 100)))) }
    else if quality = 5 then
      let rc := e1.reviewCount + 1
      let newInterval :=
        if rc = 1 then 4
        else if rc = 2 then 10
        else jsRound (e1.interval * e1.easeFactor * (13 / 10))
      { e1 with
        reviewCount := rc
        interval := newInterval
        easeFactor := min (5 / 2) (e1.easeFactor + 15 / 100) }
    else e1
  { e2 with nextReview := now + e2.interval * (24 * 60 * 60 * 1000) }

/-- `LocalDictionary.updateAfterReview`: look the word up; if absent,
return immediately (`if (!entry) return;`) leaving the store untouched;
otherwise replace the entry by its rescheduled form in place. -/
def updateAfterReview (s : Store) (w : List Char) (quality : ℤ) (now : ℚ) : Store :=
  match lookup s w with
  | none => s
  | some _ => List.map (fun e => if e.word = w then scheduleEntry e quality now else e) s

/-- `LocalDictionary.getWordsForReview`: filter the entries due at `now`
(`nextReview <= now`) and sort ascending by `nextReview`.  JS
`Array.prototype.sort` is stable, which `List.insertionSort` models
exactly. -/
def getWordsForReview (s : Store) (now : ℚ) : List DictionaryEntry :=
  List.insertionSort (fun a b => a.nextReview ≤ b.nextReview)
    (List.filter (fun e => decide (e.nextReview ≤ now)) s)

/-- Raw persisted entry as read back from `localStorage`: the SRS fields
may be absent (older format), which `initializeSRSFields` backfills. -/
structure RawEntry where
  word : List Char
  pinyin : String
  meanings : List String
  addedAt : ℚ
  usageCount : Nat
  nextReview : Option ℚ
  interval : Option ℚ
  easeFactor : Option ℚ
  reviewCount : Option Nat
  lastReviewed : Option ℚ
deriving DecidableEq, Repr

/-- `LocalDictionary.initializeSRSFields`: backfill missing SRS fields
with the new-entry defaults (`nextReview = now`, `interval = 0`,
`easeFactor = 2.5`, `reviewCount = 0`, `lastReviewed = 0`). -/
def initializeSRSFields (now : ℚ) (r : RawEntry) : DictionaryEntry :=
  { word := r.word
    pinyin := r.pinyin
    meanings := r.meanings
    addedAt := r.addedAt
    usageCount := r.usageCount
    nextReview := r.nextReview.getD now
    interval := r.interval.getD 0
    easeFactor := r.easeFactor.getD (5 / 2)
    reviewCount := r.reviewCount.getD 0
    lastReviewed := r.lastReviewed.getD 0 }

/-- The three shapes the persisted `localStorage` value can take at load
time: key absent (`getItem` returns `null`), present but not a parseable
JSON array, or a parseable array of raw entries. -/
inductive PersistedData where
  | absent : PersistedData
  | malformed : PersistedData
  | wellFormed : List RawEntry → PersistedData

/-- `LocalDictionary.loadCache`: an absent key yields an empty cache
(`stored ? JSON.parse(stored) : []`); a present but malformed value makes
`JSON.parse` (or the subsequent `forEach`) throw, and `loadCache` has no
`try`/`catch`, so the exception escapes to the caller; a well-formed
array is migrated entry by entry through `initializeSRSFields`. -/
def loadCache (now : ℚ) : PersistedData → Except String Store
  | PersistedData.absent => Except.ok []
  | PersistedData.malformed => Except.error "SyntaxError: Unexpected token in JSON"
  | PersistedData.wellFormed rs => Except.ok (rs.map (initializeSRSFields now))

/-- One (word, pinyin, translation) triple produced by segmentation. -/
structure SegmentResult where
  word : List Char
  pinyin : String
  translation : String
deriving DecidableEq, Repr

/-- Sentence-terminal characters of the split regex
`[。！？\n；;!?]+` in `splitIntoSentences`. -/
def isSentenceSep (c : Char) : Bool :=
  c == '。' || c == '！' || c == '？' || c == '\n' || c == '；' || c == ';' ||
    c == '!' || c == '?'

/-- Split a character list at every separator character (JS
`String.split` on a character class; the `+` collapsing of runs is
recovered below by dropping empty pieces). -/
def splitChars (p : Char → Bool) : List Char → List (List Char)
  | [] => [[]]
  | c :: cs =>
    if p c then [] :: splitChars p cs
    else
      match splitChars p cs with
      | [] => [[c]]
      | s :: ss => (c :: s) :: ss

/-- Whitespace recognized by the embedding of JS `String.trim` (the
characters that occur in this code base's texts). -/
def isWS (c : Char) : Bool :=
  c == ' ' || c == '\t' || c == '\n' || c == '\r'

/-- JS `String.trim`: drop leading and trailing whitespace. -/
def trimChars (s : List Char) : List Char :=
  ((s.dropWhile isWS).reverse.dropWhile isWS).reverse

/-- `splitIntoSentences`: split on sentence punctuation and newlines,
keep the pieces that are non-empty after trimming, return them
trimmed. -/
def splitIntoSentences (text : List Char) : List (List Char) :=
  ((splitChars isSentenceSep text).filter fun s => (trimChars s).length > 0).map trimChars

/-- Candidate match lengths at one scan position, longest first:
`lensDesc n = [n, n-1, ..., 1]` (the loop
`for (let len = Math.min(4, remaining); len > 0; len--)`). -/
def lensDesc : Nat → List Nat
  | 0 => []
  | n + 1 => (n + 1) :: lensDesc n

/-- Try the candidate lengths in order at the current position: return
the first dictionary hit together with the length consumed. -/
def tryLens (s : Store) (text : List Char) : List Nat → Option (DictionaryEntry × Nat)
  | [] => none
  | len :: rest =>
    match lookup s (text.take len) with
    | some e => some (e, len)
    | none => tryLens s text rest

/-- The scan loop of `trySegmentFromDictionary`, structurally recursive
on a fuel that starts at the text length (each matched span consumes at
least one character, so the fuel never runs out). -/
def trySegAux (s : Store) : Nat → List Char → Option (List SegmentResult)
  | _, [] => some []
  | 0, _ :: _ => none
  | fuel + 1, c :: cs =>
    match tryLens s (c :: cs) (lensDesc (min 4 (c :: cs).length)) with
    | none => none
    | some (e, len) =>
      match trySegAux s fuel ((c :: cs).drop len) with
      | none => none
      | some rest =>
        some ({ word := e.word, pinyin := e.pinyin,
                translation := e.meanings.headD "" } :: rest)

/-- `trySegmentFromDictionary`: greedy longest-match segmentation using
only the dictionary; `none` as soon as one position has no match at any
length (the JS function returns `null`). -/
def trySegmentFromDictionary (s : Store) (text : List Char) : Option (List SegmentResult) :=
  trySegAux s text.length text

/-- The sentinel translation emitted when the AI call fails. -/
def translationFailedSentinel : String := "[Translation failed]"

/-- The AI branch of `segmentText` for one unit: on success every
returned segment is emitted and written back through `addWord`; on
failure (the `catch` block) a single fallback triple is emitted — the
whole unit as the word, generated pinyin, and the failure sentinel — and
the store is left unchanged. -/
def segmentUnitWithAI (ai : List Char → Except String (List SegmentResult))
    (rom : List Char → String) (now : ℚ) (st : Store) (u : List Char) :
    List SegmentResult × Store :=
  match ai u with
  | Except.ok aiSegments =>
    (aiSegments,
      aiSegments.foldl (fun acc seg => addWord acc seg.word seg.pinyin seg.translation now) st)
  | Except.error _ =>
    ([{ word := u, pinyin := rom u, translation := translationFailedSentinel }], st)

/-- The per-sentence body of `segmentText`'s loop: use the dictionary
result when it is non-null and non-empty, otherwise escalate the whole
unit to the AI collaborator. -/
def processSentence (ai : List Char → Except String (List SegmentResult))
    (rom : List Char → String) (now : ℚ) (st : Store) (u : List Char) :
    List SegmentResult × Store :=
  match trySegmentFromDictionary st u with
  | some knownWords =>
    if knownWords.length > 0 then (knownWords, st)
    else segmentUnitWithAI ai rom now st u
  | none => segmentUnitWithAI ai rom now st u

/-- The loop of `segmentText` over the sentence units, threading the
dictionary store (an earlier unit's AI write-back is visible to later
units) and concatenating the emitted segments in order. -/
def segmentUnits (ai : List Char → Except String (List SegmentResult))
    (rom : List Char → String) (now : ℚ) :
    Store → List (List Char) → List SegmentResult × Store
  | st, [] => ([], st)
  | st, u :: us =>
    let r1 := processSentence ai rom now st u
    let r2 := segmentUnits ai rom now r1.2 us
    (r1.1 ++ r2.1, r2.2)

/-- `segmentText`: split into sentence units, then process each unit
dictionary-first with AI escalation.  The function is total: AI failures
are caught per unit and never propagate to the caller. -/
def segmentText (ai : List Char → Except String (List SegmentResult))
    (rom : List Char → String) (now : ℚ) (st : Store) (text : List Char) :
    List SegmentResult × Store :=
  segmentUnits ai rom now st (splitIntoSentences text)

/-! Concrete inputs used by the example-level theorems below. -/

/-- Never-reviewed entry for 你好 with the default SRS state. -/
def entryNihao : DictionaryEntry :=
  { word := ['你', '好'], pinyin := "nǐhǎo", meanings := ["hello"], addedAt := 0,
    usageCount := 1, nextReview := 0, interval := 0, easeFactor := 5 / 2,
    reviewCount := 0, lastReviewed := 0 }

/-- Single-character entry for 你, used by the re-segmentation example. -/
def entryNi : DictionaryEntry :=
  { word := ['你'], pinyin := "nǐ", meanings := ["you"], addedAt := 0,
    usageCount := 1, nextReview := 0, interval := 0, easeFactor := 2,
    reviewCount := 0, lastReviewed := 0 }

/-- Entry with word `b`, due at time 50 (tie-break example). -/
def entryTieB : DictionaryEntry :=
  { word := ['b'], pinyin := "b", meanings := ["bee"], addedAt := 0,
    usageCount := 1, nextReview := 50, interval := 0, easeFactor := 2,
    reviewCount := 0, lastReviewed := 0 }

/-- Entry with word `a`, due at time 50, inserted after `entryTieB`. -/
def entryTieA : DictionaryEntry :=
  { word := ['a'], pinyin := "a", meanings := ["ay"], addedAt := 0,
    usageCount := 1, nextReview := 50, interval := 0, easeFactor := 2,
    reviewCount := 0, lastReviewed := 0 }

/-- The unit 你好谢谢 of the all-or-nothing example. -/
def textNihaoXiexie : List Char := ['你', '好', '谢', '谢']

/-- AI collaborator stub that always fails (network error). -/
def aiFail : List Char → Except String (List SegmentResult) :=
  fun _ => Except.error "network error"

/-- AI collaborator stub that returns the whole unit as one segment,
making the unit text passed to it visible in the output. -/
def aiEcho : List Char → Except String (List SegmentResult) :=
  fun u => Except.ok [{ word := u, pinyin := "p", translation := "t" }]

/-- Romanization generator stub. -/
def romStub : List Char → String := fun _ => "rom"

/-! Helper lemmas. -/

/-- Looking a word up after the positional update that `addWord` /
`updateAfterReview` perform: the stored entry is replaced by its image
under `f`, provided `f` preserves the key. -/
theorem lookup_map_update (f : DictionaryEntry → DictionaryEntry)
    (hf : ∀ x, (f x).word = x.word) (s : Store) (w : List Char)
    (e : DictionaryEntry) (he : lookup s w = some e) :
    lookup (s.map fun x => if x.word = w then f x else x) w = some (f e) := by
  induction s with
  | nil => simp [lookup] at he
  | cons a as ih =>
    by_cases haw : a.word = w
    · have : e = a := by
        simp [lookup, List.find?_cons_of_pos, haw] at he
        exact he.symm
      subst this
      simp [lookup, List.find?_cons_of_pos, haw, hf]
    · have he' : lookup as w = some e := by
        simpa [lookup, List.find?_cons_of_neg, haw] using he
      simpa [lookup, List.find?_cons_of_neg, haw] using ih he'

/-! C1: grading a fresh entry GOOD. -/

/-- C1 (amended): for every entry with `reviewCount = 0`, `interval = 0`,
`easeFactor = 2.5`, grading GOOD (quality 4) yields `reviewCount = 1`,
`interval = 1` day, `nextReviewAt = now + 1` day, and an UNCHANGED
`easeFactor = 2.5` (the quality-4 ease adjustment term is
`0.1 - 1 * (0.08 + 1 * 0.02) = 0`). -/
theorem scheduleEntry_good_on_new (e : DictionaryEntry) (now : ℚ)
    (h0 : e.reviewCount = 0) (h1 : e.interval = 0) (h2 : e.easeFactor = 5 / 2) :
    (scheduleEntry e 4 now).reviewCount = 1 ∧
    (scheduleEntry e 4 now).interval = 1 ∧
    (scheduleEntry e 4 now).easeFactor = 5 / 2 ∧
    (scheduleEntry e 4 now).nextReview = now + 1 * (24 * 60 * 60 * 1000) := by
  simp only [scheduleEntry, h0, h1, h2]
  norm_num

/-- Witness for `scheduleEntry_good_on_new` at the concrete entry
你好. -/
theorem scheduleEntry_good_on_new_witness :
    entryNihao.reviewCount = 0 ∧ entryNihao.interval = 0 ∧
    entryNihao.easeFactor = 5 / 2 ∧
    ((scheduleEntry entryNihao 4 0).reviewCount = 1 ∧
     (scheduleEntry entryNihao 4 0).interval = 1 ∧
     (scheduleEntry entryNihao 4 0).easeFactor = 5 / 2 ∧
     (scheduleEntry entryNihao 4 0).nextReview = 0 + 1 * (24 * 60 * 60 * 1000)) :=
  ⟨rfl, rfl, rfl, scheduleEntry_good_on_new entryNihao 0 rfl rfl rfl⟩

/-- C1 counterexample: grading the fresh 你好 entry GOOD leaves
`easeFactor` at 2.5; it does not become 2.52 as the claim states. -/
theorem scheduleEntry_good_ease_counterexample :
    (scheduleEntry entryNihao 4 0).easeFactor = 5 / 2 ∧ (5 : ℚ) / 2 ≠ 63 / 25 := by
  constructor
  · simp only [scheduleEntry, entryNihao]
    norm_num
  · norm_num

/-! C6: the 1.3 ease-factor floor. -/

/-- C6: for every entry with `easeFactor ≥ 1.3` and every quality grade,
the scheduler's output `easeFactor` is `≥ 1.3`: AGAIN and
unrecognized qualities leave it unchanged, HARD and GOOD clamp with
`max 1.3`, EASY adds `0.15` (then caps at 2.5 ≥ 1.3). -/
theorem scheduleEntry_ease_floor (e : DictionaryEntry) (q : ℤ) (now : ℚ)
    (h : 13 / 10 ≤ e.easeFactor) :
    13 / 10 ≤ (scheduleEntry e q now).easeFactor := by
  simp only [scheduleEntry]
  split_ifs <;> simp <;> first
    | exact h
    | exact le_max_left _ _
    | exact ⟨by norm_num, by linarith⟩

/-- Witness for `scheduleEntry_ease_floor`: the 你好 entry (ease 2.5)
graded EASY. -/
theorem scheduleEntry_ease_floor_witness :
    13 / 10 ≤ entryNihao.easeFactor ∧
    13 / 10 ≤ (scheduleEntry entryNihao 5 0).easeFactor :=
  ⟨by norm_num [entryNihao], scheduleEntry_ease_floor entryNihao 5 0 (by norm_num [entryNihao])⟩

/-! C10: qualities outside the grading scale. -/

/-- C10: for a quality outside the set 1, 3, 4, 5 (for example 0 or 2),
`updateAfterReview` on an existing entry falls through every scheduling
branch: `interval`, `easeFactor` and `reviewCount` are unchanged, yet
`lastReviewed` is set to `now` and `nextReview` is rescheduled to
`now` plus the unchanged interval. -/
theorem updateAfterReview_other_quality (s : Store) (w : List Char) (q : ℤ)
    (now : ℚ) (e : DictionaryEntry) (he : lookup s w = some e)
    (h1 : q ≠ 1) (h3 : q ≠ 3) (h4 : q ≠ 4) (h5 : q ≠ 5) :
    lookup (updateAfterReview s w q now) w =
      some { e with lastReviewed := now,
                    nextReview := now + e.interval * (24 * 60 * 60 * 1000) } := by
  have hsched : ∀ x : DictionaryEntry, scheduleEntry x q now =
      { x with lastReviewed := now,
               nextReview := now + x.interval * (24 * 60 * 60 * 1000) } := by
    intro x
    simp only [scheduleEntry, h1, h3, h4, h5, if_false]
  have hw : ∀ x : DictionaryEntry, (scheduleEntry x q now).word = x.word := by
    intro x; rw [hsched x]
  rw [updateAfterReview, he]
  rw [lookup_map_update (fun x => scheduleEntry x q now) hw s w e he, hsched e]

/-- Witness for `updateAfterReview_other_quality`: quality 2 on the
singleton 你好 store. -/
theorem updateAfterReview_other_quality_witness :
    lookup [entryNihao] entryNihao.word = some entryNihao ∧
    ((2 : ℤ) ≠ 1 ∧ (2 : ℤ) ≠ 3 ∧ (2 : ℤ) ≠ 4 ∧ (2 : ℤ) ≠ 5) ∧
    lookup (updateAfterReview [entryNihao] entryNihao.word 2 7) entryNihao.word =
      some { entryNihao with lastReviewed := 7,
                             nextReview := 7 + entryNihao.interval * (24 * 60 * 60 * 1000) } :=
  ⟨rfl, ⟨by decide, by decide, by decide, by decide⟩,
    updateAfterReview_other_quality [entryNihao] entryNihao.word 2 7 entryNihao
      rfl (by decide) (by decide) (by decide) (by decide)⟩

/-! C8: review of an unknown word. -/

/-- C8 (amended): `updateAfterReview` on a word not present in the store
is a silent no-op (`if (!entry) return;`): the store is returned
unchanged and no error is surfaced to the caller. -/
theorem updateAfterReview_unknown_noop (s : Store) (w : List Char) (q : ℤ)
    (now : ℚ) (h : lookup s w = none) :
    updateAfterReview s w q now = s := by
  rw [updateAfterReview, h]

/-- Witness for `updateAfterReview_unknown_noop`: reviewing the unknown
word `x` against the singleton 你好 store. -/
theorem updateAfterReview_unknown_noop_witness :
    lookup [entryNihao] ['x'] = none ∧
    updateAfterReview [entryNihao] ['x'] 4 7 = [entryNihao] :=
  ⟨rfl, updateAfterReview_unknown_noop [entryNihao] ['x'] 4 7 rfl⟩

/-- C8 counterexample: reviewing the unknown word `x` returns normally
with the store untouched — no explicit error reaches the caller (the
source returns `void` and exits early), contrary to the claim. -/
theorem updateAfterReview_unknown_counterexample :
    updateAfterReview [entryNihao] ['x'] 4 123 = [entryNihao] := rfl

/-! C9: upsert of a word already present. -/

/-- C9: for a word already present, `addWord` increments `usageCount`,
appends the meaning only if not already present by exact string equality
(preserving prior order), replaces the romanization, and leaves every
SRS field (`nextReview`, `interval`, `easeFactor`, `reviewCount`,
`lastReviewed`) — and `addedAt` — unchanged. -/
theorem addWord_existing_update (s : Store) (w : List Char) (p t : String)
    (now : ℚ) (e : DictionaryEntry) (he : lookup s w = some e) :
    lookup (addWord s w p t now) w =
      some { e with
             usageCount := e.usageCount + 1
             meanings := if t ∈ e.meanings then e.meanings else e.meanings ++ [t]
             pinyin := p } := by
  have hw : ∀ x : DictionaryEntry, (updateExisting x p t).word = x.word := fun _ => rfl
  have hupd : updateExisting e p t =
      { e with
        usageCount := e.usageCount + 1
        meanings := if t ∈ e.meanings then e.meanings else e.meanings ++ [t]
        pinyin := p } := by
    by_cases hp : e.pinyin = p <;> simp [updateExisting, hp]
  rw [addWord, he]
  rw [lookup_map_update (fun x => updateExisting x p t) hw s w e he, hupd]

/-- Witness for `addWord_existing_update`: re-adding 你好 with a new
romanization and a duplicate meaning. -/
theorem addWord_existing_update_witness :
    lookup [entryNihao] entryNihao.word = some entryNihao ∧
    lookup (addWord [entryNihao] entryNihao.word "nihao2" "hello" 99) entryNihao.word =
      some { entryNihao with
             usageCount := entryNihao.usageCount + 1
             meanings := if "hello" ∈ entryNihao.meanings then entryNihao.meanings
                         else entryNihao.meanings ++ ["hello"]
             pinyin := "nihao2" } :=
  ⟨rfl, addWord_existing_update [entryNihao] entryNihao.word "nihao2" "hello" 99 entryNihao rfl⟩

/-! C7: loading persisted data. -/

/-- C7 (amended): an absent persisted value loads as the empty store and
a well-formed array loads (with SRS backfill) without error, but a
malformed persisted value makes the load throw — `JSON.parse` raises and
`loadCache` has no handler, so initialization propagates the
exception. -/
theorem loadCache_characterization (now : ℚ) (rs : List RawEntry) :
    loadCache now PersistedData.absent = Except.ok [] ∧
    loadCache now (PersistedData.wellFormed rs) =
      Except.ok (rs.map (initializeSRSFields now)) ∧
    loadCache now PersistedData.malformed =
      Except.error "SyntaxError: Unexpected token in JSON" :=
  ⟨rfl, rfl, rfl⟩

/-- C7 counterexample: loading malformed persisted data does not result
in an empty store — the load path throws instead of returning. -/
theorem loadCache_malformed_counterexample :
    loadCache 0 PersistedData.malformed ≠ Except.ok [] ∧
    loadCache 0 PersistedData.malformed =
      Except.error "SyntaxError: Unexpected token in JSON" :=
  ⟨by simp [loadCache], rfl⟩

/-! C3: the due list. -/

/-- Comparison by due date is total. -/
instance : IsTotal DictionaryEntry (fun a b => a.nextReview ≤ b.nextReview) :=
  ⟨fun a b => le_total a.nextReview b.nextReview⟩

/-- Comparison by due date is transitive. -/
instance : IsTrans DictionaryEntry (fun a b => a.nextReview ≤ b.nextReview) :=
  ⟨fun _ _ _ hab hbc => le_trans hab hbc⟩

/-- C3 (amended): `getWordsForReview` returns exactly the entries whose
`nextReview` is at most the query time (a permutation of the filtered
store — never an entry due later), sorted ascending by `nextReview`;
ties keep the store's insertion order (the sort is stable), they are not
re-ordered by word. -/
theorem getWordsForReview_perm_sorted (s : Store) (now : ℚ) :
    List.Perm (getWordsForReview s now)
      (List.filter (fun e => decide (e.nextReview ≤ now)) s) ∧
    List.Sorted (fun a b => a.nextReview ≤ b.nextReview) (getWordsForReview s now) :=
  ⟨List.perm_insertionSort _ _, List.sorted_insertionSort _ _⟩

/-- C3 counterexample: two entries both due at time 50 were inserted in
the order `b`, `a`; the due list keeps them in insertion order `b`, `a`
rather than breaking the tie by word. -/
theorem getWordsForReview_tie_counterexample :
    entryTieB.nextReview = entryTieA.nextReview ∧
    (getWordsForReview [entryTieB, entryTieA] 100).map DictionaryEntry.word =
      [['b'], ['a']] ∧
    (getWordsForReview [entryTieB, entryTieA] 100).map DictionaryEntry.word ≠
      [['a'], ['b']] := by
  refine ⟨rfl, ?_, ?_⟩ <;> decide

/-! C2, C4, C5: the segmenter. -/

/-- Units produced by `splitIntoSentences` are trimmed and non-empty. -/
theorem ne_nil_of_mem_splitIntoSentences (text u : List Char)
    (hu : u ∈ splitIntoSentences text) : u ≠ [] := by
  simp only [splitIntoSentences, List.mem_map, List.mem_filter] at hu
  obtain ⟨v, ⟨hv, hlen⟩, rfl⟩ := hu
  simp only [decide_eq_true_eq] at hlen
  exact List.length_pos.mp hlen

/-- A successful dictionary segmentation of a non-empty unit emits at
least one segment. -/
theorem trySeg_ne_nil (s : Store) (c : Char) (cs : List Char)
    (ks : List SegmentResult)
    (h : trySegmentFromDictionary s (c :: cs) = some ks) : ks ≠ [] := by
  rw [trySegmentFromDictionary, List.length_cons, trySegAux] at h
  split at h
  · exact absurd h (by simp)
  · split at h
    · exact absurd h (by simp)
    · rw [Option.some_inj] at h
      rw [← h]
      exact List.cons_ne_nil _ _

/-- The loop of `segmentText` does not touch the store while every unit
segments from the dictionary alone. -/
theorem segmentUnits_known_store (ai : List Char → Except String (List SegmentResult))
    (rom : List Char → String) (now : ℚ) (s : Store) (us : List (List Char))
    (h : ∀ u ∈ us, u ≠ [] ∧ (trySegmentFromDictionary s u).isSome) :
    (segmentUnits ai rom now s us).2 = s := by
  induction us with
  | nil => rfl
  | cons u us ih =>
    obtain ⟨hne, hsome⟩ := h u (List.mem_cons_self u us)
    obtain ⟨ks, hks⟩ := Option.isSome_iff_exists.mp hsome
    have hksne : ks ≠ [] := by
      cases u with
      | nil => exact absurd rfl hne
      | cons c cs => exact trySeg_ne_nil s c cs ks hks
    have hproc : processSentence ai rom now s u = (ks, s) := by
      rw [processSentence, hks]
      simp [List.length_pos, hksne]
    rw [segmentUnits]
    simp only [hproc]
    exact ih fun v hv => h v (List.mem_cons_of_mem u hv)

/-- C2 (amended): segmenting a text all of whose units are fully matched
by the dictionary leaves the store — in particular every `usageCount` —
unchanged; the dictionary-only path only reads.  (Usage counts grow only
through `addWord` on the AI write-back path and are never reset.) -/
theorem segmentText_known_store (ai : List Char → Except String (List SegmentResult))
    (rom : List Char → String) (now : ℚ) (s : Store) (text : List Char)
    (h : ∀ u ∈ splitIntoSentences text, (trySegmentFromDictionary s u).isSome) :
    (segmentText ai rom now s text).2 = s := by
  rw [segmentText]
  exact segmentUnits_known_store ai rom now s (splitIntoSentences text)
    fun u hu => ⟨ne_nil_of_mem_splitIntoSentences text u hu, h u hu⟩

/-- Witness for `segmentText_known_store`: the text 你 against the
store that already knows 你. -/
theorem segmentText_known_store_witness :
    (∀ u ∈ splitIntoSentences ['你'], (trySegmentFromDictionary [entryNi] u).isSome) ∧
    (segmentText aiFail romStub 0 [entryNi] ['你']).2 = [entryNi] :=
  ⟨by decide, segmentText_known_store aiFail romStub 0 [entryNi] ['你'] (by decide)⟩

/-- C2 counterexample: segmenting 你 twice, with 你 already in the
dictionary at `usageCount = 1`, leaves its `usageCount` at 1 — not 3 as
the once-per-call increment stated by the claim would give. -/
theorem segmentText_usage_counterexample :
    (lookup (segmentText aiFail romStub 0
        (segmentText aiFail romStub 0 [entryNi] ['你']).2 ['你']).2 ['你']).map
      DictionaryEntry.usageCount = some 1 ∧
    ¬ ((lookup (segmentText aiFail romStub 0
        (segmentText aiFail romStub 0 [entryNi] ['你']).2 ['你']).2 ['你']).map
      DictionaryEntry.usageCount = some 3) := by
  refine ⟨?_, ?_⟩ <;> decide

/-- C4: dictionary-only segmentation is all-or-nothing per unit — when
`trySegmentFromDictionary` fails (some position matched at no length),
no partial result is emitted and `segmentText` hands the ENTIRE unit
text to the AI branch (`segmentUnitWithAI`, which calls `ai u`). -/
theorem segmentText_all_or_nothing (ai : List Char → Except String (List SegmentResult))
    (rom : List Char → String) (now : ℚ) (s : Store) (text u : List Char)
    (hu : splitIntoSentences text = [u])
    (hfail : trySegmentFromDictionary s u = none) :
    segmentText ai rom now s text = segmentUnitWithAI ai rom now s u := by
  rw [segmentText, hu, segmentUnits]
  simp only [processSentence, hfail]
  rw [segmentUnits]
  simp

/-- Witness for `segmentText_all_or_nothing`: the unit 你好谢谢 with a
dictionary containing 你好 but not 谢谢: 谢谢 matches at no length, so
the whole unit escalates to the AI collaborator. -/
theorem segmentText_all_or_nothing_witness :
    splitIntoSentences textNihaoXiexie = [textNihaoXiexie] ∧
    trySegmentFromDictionary [entryNihao] textNihaoXiexie = none ∧
    segmentText aiEcho romStub 0 [entryNihao] textNihaoXiexie =
      segmentUnitWithAI aiEcho romStub 0 [entryNihao] textNihaoXiexie :=
  ⟨by decide, by decide,
    segmentText_all_or_nothing aiEcho romStub 0 [entryNihao] textNihaoXiexie
      textNihaoXiexie (by decide) (by decide)⟩

/-- C5: when the AI call for a unit fails, `segmentText` emits exactly
one fallback triple for that unit — the unit text as the word, generated
romanization, the `[Translation failed]` sentinel — leaves the store
unchanged, and returns normally (the failure is caught inside the loop
and never propagated to the caller). -/
theorem segmentText_ai_failure_fallback (ai : List Char → Except String (List SegmentResult))
    (rom : List Char → String) (now : ℚ) (s : Store) (text u : List Char)
    (err : String) (hu : splitIntoSentences text = [u])
    (hfail : trySegmentFromDictionary s u = none)
    (herr : ai u = Except.error err) :
    segmentText ai rom now s text =
      ([{ word := u, pinyin := rom u, translation := translationFailedSentinel }], s) := by
  rw [segmentText, hu, segmentUnits]
  simp only [processSentence, hfail, segmentUnitWithAI, herr]
  rw [segmentUnits]
  simp

/-- Witness for `segmentText_ai_failure_fallback`: 你好谢谢 with the
always-failing AI collaborator yields the single fallback triple. -/
theorem segmentText_ai_failure_fallback_witness :
    splitIntoSentences textNihaoXiexie = [textNihaoXiexie] ∧
    trySegmentFromDictionary [entryNihao] textNihaoXiexie = none ∧
    aiFail textNihaoXiexie = Except.error "network error" ∧
    segmentText aiFail romStub 0 [entryNihao] textNihaoXiexie =
      ([{ word := textNihaoXiexie, pinyin := romStub textNihaoXiexie,
          translation := translationFailedSentinel }], [entryNihao]) :=
  ⟨by decide, by decide, rfl,
    segmentText_ai_failure_fallback aiFail romStub 0 [entryNihao] textNihaoXiexie
      textNihaoXiexie "network error" (by decide) (by decide) rfl⟩
